import Mathlib

/-!
Shallow embedding of `limit_reached.py` (job scraper): a bounded, randomized,
recursive crawl over a link graph, with a global run deadline, a per-node
"deeper" deadline, a record cap, retry-decorated extraction/discovery, and a
CSV persistence step.

Modelling conventions:
* All browser/network behaviour is an oracle (`Env`): per link it fixes the
  outcome and wall-clock duration of `page.goto`, the per-attempt outcomes of
  the fallible Playwright reads inside `extract_job_data` / `find_job_links`,
  the canonical `page.url` reached after navigation, the outcome of the
  `document.readyState` wait, and the permutation `random.shuffle` applies.
* Wall-clock time is a `Nat` carried in the crawl state; every external
  operation advances it by its `Env`-given duration, and every `time.time()`
  read in the source reads the current value.  Durations of the waits and
  backoffs inside an operation are folded into that operation's duration.
* Exceptions are modelled where they can actually escape: `page.goto` is the
  only statement of the explorer's `try` block that can raise (everything
  else returns normally because of the catch-all handlers inside
  `wait_for_page_load`, `extract_job_data` and `find_job_links`).
* The Python recursion has no depth bound; `fuel` bounds the modelled
  recursion depth, and a child call at fuel 0 is a no-op (the child remains
  scheduled in the visited set, unexplored).  Invariant theorems hold for
  every fuel; concrete runs pick a sufficient fuel.
* `CrawlState.calls` is a ghost event log, consed at entry of every explorer
  invocation (the source logs "Visiting" per invocation); it exists only to
  state "the explorer is invoked at most once per address".
-/

/-- Constant from the source: starting URL for scraping. -/
def ROOT_URL : String := "https://justjoin.it/job-offers/warszawa/testing"

/-- Constant from the source: limit of unique job postings to collect. -/
def MAX_RECORDS : Nat := 150

/-- Constant from the source: timeout for loading pages in milliseconds. -/
def GLOBAL_TIMEOUT : Nat := 30000

/-- Constant from the source: maximum retries for failed tasks
(`stop_after_attempt` bound of the tenacity decorators). -/
def MAX_RETRY_FAILS : Nat := 3

/-- Constant from the source: overall timeout for the entire list (seconds). -/
def TIMEOUT_TOTAL_SECONDS : Nat := 60

/-- Constant from the source: timeout for going deeper from a single link
(seconds). -/
def TIMEOUT_DEEPER_SECONDS : Nat := 45

/-- A saved job record: the dict `{"title": title, "url": url}` built by
`extract_job_data`. -/
structure Record where
  title : String
  url : String
deriving DecidableEq, Repr

/-- Oracle for everything outside the crawl algorithm itself (browser,
network, randomness, wall clock).  Keyed by the navigated link; each link is
explored at most once, so per-link keying loses no generality. -/
structure Env where
  /-- Value of `time.time()` when `last_save_time` is initialised. -/
  startTime : Nat
  /-- Wall-clock duration of `page.goto(link)` (including a timeout failure). -/
  gotoDur : String → Nat
  /-- Whether `page.goto(link)` returns normally (`false` = it raises). -/
  gotoOk : String → Bool
  /-- Wall-clock duration of the whole `extract_job_data(page)` call. -/
  extractDur : String → Nat
  /-- Wall-clock duration of the whole `find_job_links(page)` call. -/
  findDur : String → Nat
  /-- Whether `page.wait_for_function("document.readyState === 'complete'")`
  succeeds on the page reached from this link (`false` = it times out). -/
  ready : String → Bool
  /-- `page.url` after navigating to this link (may differ from the link
  itself, e.g. after a redirect). -/
  pageUrl : String → String
  /-- Per-attempt outcome of `page.locator("h1").inner_text(...)` on the page
  reached from this link (`Except.error` = the Playwright call raises). -/
  titleAttempts : String → Nat → Except Unit String
  /-- Per-attempt outcome of `page.eval_on_selector_all("a[href*='/job-offer/']", ...)`
  on the page reached from this link. -/
  linkAttempts : String → Nat → Except Unit (List String)
  /-- The permutation `random.shuffle` applies to the discovered links of this
  page. -/
  shuffle : String → List String → List String

/-- The mutable crawl state of one run: `visited_links`, `unique_urls`,
`job_results`, the `last_save_time` box, plus the modelled wall clock `now`
and the ghost invocation log `calls`. -/
structure CrawlState where
  visited_links : List String
  unique_urls : List String
  job_results : List Record
  last_save_time : Nat
  now : Nat
  calls : List String
deriving DecidableEq, Repr

/-- Result of `wait_for_page_load`: whether the extra 3000 ms settle delay
(`page.wait_for_timeout(3000)`) ran, and whether an exception escaped the
function (never: the `except` clause catches everything and only logs). -/
structure LoadWaitResult where
  settled : Bool
  raised : Bool
deriving DecidableEq, Repr

/-- `wait_for_page_load(page)`: `try: wait_for_function(readyState, ...);
wait_for_timeout(3000) except: log warning`.  If the readiness wait times out
(`readyOk = false`), the raised timeout jumps straight to the handler, so the
settle delay is skipped; in every case the function returns normally. -/
def wait_for_page_load (readyOk : Bool) : LoadWaitResult :=
  if readyOk then { settled := true, raised := false }
  else { settled := false, raised := false }

/-- The attempt loop of a tenacity `@retry(stop=stop_after_attempt n)`
decorator: run the wrapped body up to `n` attempts, returning the first
normal return; an attempt that raises (`Except.error`) is retried; if every
attempt raises, the final failure is surfaced as an error. -/
def tenacityRun (body : Nat → Except Unit α) : Nat → Nat → Except Unit α
  | _, 0 => Except.error ()
  | i, n + 1 =>
    match body i with
    | Except.ok a => Except.ok a
    | Except.error _ => tenacityRun body (i + 1) n

/-- `@retry(stop=stop_after_attempt(n), wait=wait_exponential(...))` applied
to a body; the backoff waits only consume time, so they are folded into the
operation durations of `Env`. -/
def tenacityCall (n : Nat) (body : Nat → Except Unit α) : Except Unit α :=
  tenacityRun body 0 n

/-- The `try` body of `extract_job_data` for one attempt: wait for the page
(never raises), read the `h1` inner text (may raise, in which case the
`except` clause logs and returns `None`), pair it with `page.url`. -/
def extract_job_data_body (readyOk : Bool) (titleAttempt : Except Unit String)
    (pageUrl : String) : Option Record :=
  let _load := wait_for_page_load readyOk
  match titleAttempt with
  | Except.ok t => some { title := t, url := pageUrl }
  | Except.error _ => none

/-- `extract_job_data(page)` as decorated in the source: the tenacity
wrapper around a body whose internal `try/except` catches every exception
and returns `None`, so the wrapper always sees a normal return. -/
def extract_job_data (readyOk : Bool) (titleAttempts : Nat → Except Unit String)
    (pageUrl : String) : Option Record :=
  match tenacityCall MAX_RETRY_FAILS
      (fun i => Except.ok (extract_job_data_body readyOk (titleAttempts i) pageUrl)) with
  | Except.ok v => v
  | Except.error _ => none

/-- The `try` body of `find_job_links` for one attempt: wait for the page,
collect the `a[href*='/job-offer/']` hrefs (on a raise, the `except` clause
logs and returns `[]`). -/
def find_job_links_body (readyOk : Bool)
    (linkAttempt : Except Unit (List String)) : List String :=
  let _load := wait_for_page_load readyOk
  match linkAttempt with
  | Except.ok ls => ls
  | Except.error _ => []

/-- `find_job_links(page)` as decorated in the source. -/
def find_job_links (readyOk : Bool)
    (linkAttempts : Nat → Except Unit (List String)) : List String :=
  match tenacityCall MAX_RETRY_FAILS
      (fun i => Except.ok (find_job_links_body readyOk (linkAttempts i))) with
  | Except.ok v => v
  | Except.error _ => []

/-- The Retry Wrapper semantics the specification describes for Record
Extraction (retry the fallible read itself up to `MAX_RETRY_FAILS` attempts;
only after the final failure degrade to no record).  Stated from the spec's
words, for comparison with `extract_job_data`. -/
def extract_job_data_spec (titleAttempts : Nat → Except Unit String)
    (pageUrl : String) : Option Record :=
  match tenacityCall MAX_RETRY_FAILS titleAttempts with
  | Except.ok t => some { title := t, url := pageUrl }
  | Except.error _ => none

/-- The Retry Wrapper semantics the specification describes for Link
Discovery; for comparison with `find_job_links`. -/
def find_job_links_spec (linkAttempts : Nat → Except Unit (List String)) :
    List String :=
  match tenacityCall MAX_RETRY_FAILS linkAttempts with
  | Except.ok ls => ls
  | Except.error _ => []

/-- Lines 87–93 of the source: if extraction yielded a record whose URL is
not yet in `unique_urls`, append it to `job_results`, add the URL to
`unique_urls`, and refresh `last_save_time` with the current `time.time()`. -/
def save_record (job_data : Option Record) (s : CrawlState) : CrawlState :=
  match job_data with
  | some jd =>
    if jd.url ∈ s.unique_urls then s
    else { s with job_results := s.job_results ++ [jd],
                  unique_urls := jd.url :: s.unique_urls,
                  last_save_time := s.now }
  | none => s

/-- The `for deeper_link in deeper_links:` loop (lines 100–107): per
candidate, first the deeper-timeout check (`break` drops every remaining
candidate), then the visited check; an unvisited candidate is added to
`visited_links` and recursed into via `recurse`. -/
def explore_deeper (env : Env) (recurse : String → CrawlState → CrawlState)
    (deeper_start : Nat) : List String → CrawlState → CrawlState
  | [], s => s
  | deeper_link :: rest, s =>
    if TIMEOUT_DEEPER_SECONDS < s.now - deeper_start then s
    else if deeper_link ∈ s.visited_links then
      explore_deeper env recurse deeper_start rest s
    else
      explore_deeper env recurse deeper_start rest
        (recurse deeper_link { s with visited_links := deeper_link :: s.visited_links })

/-- The body of `process_links_recursively` (lines 76–110), with the
recursive call abstracted as `recurse`.  Order follows the source: global
deadline check, `page.goto` (the only statement of the `try` block that can
raise — its failure jumps to the `except` handler, abandoning only this
node), `extract_job_data`, the save step, `deeper_start_time = time.time()`
(read BEFORE link discovery runs), `find_job_links`, `random.shuffle`, then
the deeper loop. -/
def process_node (env : Env) (recurse : String → CrawlState → CrawlState)
    (link : String) (s : CrawlState) : CrawlState :=
  let s₀ : CrawlState := { s with calls := link :: s.calls }
  if TIMEOUT_TOTAL_SECONDS < s₀.now - s₀.last_save_time then s₀
  else
    let s₁ : CrawlState := { s₀ with now := s₀.now + env.gotoDur link }
    if env.gotoOk link = false then s₁
    else
      let s₂ : CrawlState := { s₁ with now := s₁.now + env.extractDur link }
      let s₃ : CrawlState :=
        save_record (extract_job_data (env.ready link) (env.titleAttempts link)
          (env.pageUrl link)) s₂
      let deeper_start := s₃.now
      let s₄ : CrawlState := { s₃ with now := s₃.now + env.findDur link }
      explore_deeper env recurse deeper_start
        (env.shuffle link (find_job_links (env.ready link) (env.linkAttempts link))) s₄

/-- Variant of `process_node` that records `deeper_start` AFTER link
discovery has returned and the candidates have been shuffled — the ordering
the specification's §4.2.d–e describes.  Stated from the spec's words, for
comparison with `process_node` (which reads the clock before discovery). -/
def process_node_spec_order (env : Env)
    (recurse : String → CrawlState → CrawlState) (link : String)
    (s : CrawlState) : CrawlState :=
  let s₀ : CrawlState := { s with calls := link :: s.calls }
  if TIMEOUT_TOTAL_SECONDS < s₀.now - s₀.last_save_time then s₀
  else
    let s₁ : CrawlState := { s₀ with now := s₀.now + env.gotoDur link }
    if env.gotoOk link = false then s₁
    else
      let s₂ : CrawlState := { s₁ with now := s₁.now + env.extractDur link }
      let s₃ : CrawlState :=
        save_record (extract_job_data (env.ready link) (env.titleAttempts link)
          (env.pageUrl link)) s₂
      let s₄ : CrawlState := { s₃ with now := s₃.now + env.findDur link }
      let deeper_start := s₄.now
      explore_deeper env recurse deeper_start
        (env.shuffle link (find_job_links (env.ready link) (env.linkAttempts link))) s₄

/-- `process_links_recursively(link, ..., depth)`: `fuel` bounds the modelled
recursion depth; a child call at fuel 0 is a no-op.  The `depth` argument of
the source only feeds log strings, so it is not threaded here. -/
def process_links_recursively (env : Env) : Nat → String → CrawlState → CrawlState
  | 0, link, s => process_node env (fun _ s' => s') link s
  | fuel + 1, link, s =>
    process_node env (fun dl s' => process_links_recursively env fuel dl s') link s

/-- The root loop of `scrape_jobs` (lines 132–137):
`while root_queue and len(job_results) < MAX_RECORDS:` pop the next root
link; if unvisited, add it to `visited_links` and explore it at depth 0. -/
def root_loop (env : Env) (fuel : Nat) : List String → CrawlState → CrawlState
  | [], s => s
  | root_link :: rest, s =>
    if s.job_results.length < MAX_RECORDS then
      if root_link ∈ s.visited_links then root_loop env fuel rest s
      else
        root_loop env fuel rest
          (process_links_recursively env fuel root_link
            { s with visited_links := root_link :: s.visited_links })
    else s

/-- The fresh crawl state of `scrape_jobs` (lines 115–119):
`last_save_time = [time.time()]` is initialised before any navigation. -/
def initialState (env : Env) : CrawlState :=
  { visited_links := [], unique_urls := [], job_results := [],
    last_save_time := env.startTime, now := env.startTime, calls := [] }

/-- `scrape_jobs()` up to the end of the root loop: navigate to `ROOT_URL`
(a failure is caught by the critical-error handler, after which the run
proceeds straight to finalisation), collect the root links, and run the root
loop.  Browser setup/teardown has no effect on crawl state. -/
def scrape_jobs (env : Env) (fuel : Nat) : CrawlState :=
  let s := initialState env
  let s₁ : CrawlState := { s with now := s.now + env.gotoDur ROOT_URL }
  if env.gotoOk ROOT_URL = false then s₁
  else
    let root_links := find_job_links (env.ready ROOT_URL) (env.linkAttempts ROOT_URL)
    let s₂ : CrawlState := { s₁ with now := s₁.now + env.findDur ROOT_URL }
    root_loop env fuel root_links s₂

/-- Models `pd.DataFrame(data)` column inference for a list of job dicts:
every record carries exactly the keys `title` and `url`, so a nonempty list
yields those two columns; an EMPTY list yields a DataFrame with NO columns. -/
def df_columns (data : List Record) : List String :=
  match data with
  | [] => []
  | _ => ["title", "url"]

/-- `write_to_csv(data, filename)` = `pd.DataFrame(data).to_csv(filename,
index=False)`, modelled as the list of lines written: the comma-joined
header of the inferred columns, then one comma-joined row per record
(to_csv quoting of embedded commas is out of scope).  For an empty ledger
the inferred column list is empty, so the artifact is a single empty line. -/
def write_to_csv (data : List Record) : List String :=
  String.intercalate "," (df_columns data) ::
    data.map (fun r => String.intercalate "," [r.title, r.url])

/-- The finalisation step of `scrape_jobs` (lines 146–151): persist
`job_results` if nonempty, otherwise explicitly write the empty frame.
Reached on every exit path of the run (the root loop's `try` catches
critical errors and falls through `finally` to this step). -/
def scrape_jobs_csv (env : Env) (fuel : Nat) : List String :=
  let final := scrape_jobs env fuel
  if final.job_results.isEmpty then write_to_csv []
  else write_to_csv final.job_results

/-- A benign oracle: every operation succeeds instantly, pages canonicalise
to their own link, extraction always titles the page "T", and no page has
outbound links. -/
def envA : Env :=
  { startTime := 0, gotoDur := fun _ => 0, gotoOk := fun _ => true,
    extractDur := fun _ => 0, findDur := fun _ => 0, ready := fun _ => true,
    pageUrl := fun l => l, titleAttempts := fun _ _ => Except.ok "T",
    linkAttempts := fun _ _ => Except.ok [], shuffle := fun _ l => l }

/-- A crawl state whose ledger already holds `MAX_RECORDS` records. -/
def overCap : CrawlState :=
  { visited_links := [], unique_urls := [],
    job_results := List.replicate MAX_RECORDS { title := "t", url := "x" },
    last_save_time := 0, now := 0, calls := [] }

/-- A crawl state in which the global deadline is already exceeded. -/
def sLate : CrawlState :=
  { visited_links := [], unique_urls := [], job_results := [],
    last_save_time := 0, now := TIMEOUT_TOTAL_SECONDS + 1, calls := [] }

/-- Oracle whose link discovery takes longer than the deeper budget and
yields one candidate per page. -/
def envC6 : Env :=
  { envA with findDur := fun _ => TIMEOUT_DEEPER_SECONDS + 1,
              linkAttempts := fun _ _ => Except.ok ["c"] }

/-- Oracle in which every navigation fails (including the root). -/
def envC8 : Env := { envA with gotoOk := fun _ => false }

/-- Attempt oracle: the h1 read raises on attempt 1 and would succeed from
attempt 2 on. -/
def failTitleAttempts : Nat → Except Unit String :=
  fun i => if i = 0 then Except.error () else Except.ok "Senior Tester"

/-- Attempt oracle: the link collection raises on attempt 1 and would
succeed from attempt 2 on. -/
def failLinkAttempts : Nat → Except Unit (List String) :=
  fun i => if i = 0 then Except.error () else Except.ok ["https://justjoin.it/job-offer/x"]

/-- `new` extends `old` by consing elements at the front (how
`visited_links`, `unique_urls` and the ghost `calls` grow). -/
def GrowsFront {α : Type} (old new : List α) : Prop := ∃ l, new = l ++ old

/-- `new` extends `old` by appending elements at the back (how the ledger
`job_results` grows). -/
def GrowsBack {α : Type} (old new : List α) : Prop := ∃ l, new = old ++ l

theorem growsFront_refl {α : Type} (l : List α) : GrowsFront l l := ⟨[], rfl⟩

theorem growsFront_trans {α : Type} {a b c : List α}
    (h₁ : GrowsFront a b) (h₂ : GrowsFront b c) : GrowsFront a c := by
  obtain ⟨u, hu⟩ := h₁; obtain ⟨v, hv⟩ := h₂
  exact ⟨v ++ u, by rw [hv, hu, List.append_assoc]⟩

theorem growsFront_cons {α : Type} (a : α) (l : List α) :
    GrowsFront l (a :: l) := ⟨[a], rfl⟩

theorem growsFront_mem {α : Type} {a b : List α} {x : α}
    (h : GrowsFront a b) (hx : x ∈ a) : x ∈ b := by
  obtain ⟨u, hu⟩ := h; rw [hu]; exact List.mem_append_right u hx

theorem growsBack_refl {α : Type} (l : List α) : GrowsBack l l := ⟨[], by simp⟩

theorem growsBack_trans {α : Type} {a b c : List α}
    (h₁ : GrowsBack a b) (h₂ : GrowsBack b c) : GrowsBack a c := by
  obtain ⟨u, hu⟩ := h₁; obtain ⟨v, hv⟩ := h₂
  exact ⟨u ++ v, by rw [hv, hu, List.append_assoc]⟩

theorem growsBack_append {α : Type} (l m : List α) : GrowsBack l (l ++ m) := ⟨m, rfl⟩

theorem growsBack_mem {α : Type} {a b : List α} {x : α}
    (h : GrowsBack a b) (hx : x ∈ a) : x ∈ b := by
  obtain ⟨u, hu⟩ := h; rw [hu]; exact List.mem_append_left u hx

/-- Crawl state `s'` extends `s` without any rollback: the ledger only got
appended to, the visited / unique / invocation sets only grew, the clock
only advanced, and (from a time-consistent state) the last-progress
timestamp was only ever refreshed forward, never restored. -/
def Extends (s s' : CrawlState) : Prop :=
  GrowsBack s.job_results s'.job_results ∧
  GrowsFront s.visited_links s'.visited_links ∧
  GrowsFront s.unique_urls s'.unique_urls ∧
  GrowsFront s.calls s'.calls ∧
  s.now ≤ s'.now ∧
  (s.last_save_time ≤ s.now →
    s.last_save_time ≤ s'.last_save_time ∧ s'.last_save_time ≤ s'.now)

theorem extends_refl (s : CrawlState) : Extends s s :=
  ⟨growsBack_refl _, growsFront_refl _, growsFront_refl _, growsFront_refl _,
    Nat.le_refl _, fun h => ⟨Nat.le_refl _, h⟩⟩

theorem extends_trans {s₁ s₂ s₃ : CrawlState}
    (h₁ : Extends s₁ s₂) (h₂ : Extends s₂ s₃) : Extends s₁ s₃ := by
  obtain ⟨a1, b1, c1, d1, e1, f1⟩ := h₁
  obtain ⟨a2, b2, c2, d2, e2, f2⟩ := h₂
  refine ⟨growsBack_trans a1 a2, growsFront_trans b1 b2, growsFront_trans c1 c2,
    growsFront_trans d1 d2, Nat.le_trans e1 e2, ?_⟩
  intro h
  obtain ⟨g1, g2⟩ := f1 h
  obtain ⟨g3, g4⟩ := f2 g2
  exact ⟨Nat.le_trans g1 g3, g4⟩

theorem extends_push_calls (l : String) (s : CrawlState) :
    Extends s { s with calls := l :: s.calls } :=
  ⟨growsBack_refl _, growsFront_refl _, growsFront_refl _, growsFront_cons _ _,
    Nat.le_refl _, fun h => ⟨Nat.le_refl _, h⟩⟩

theorem extends_push_visited (l : String) (s : CrawlState) :
    Extends s { s with visited_links := l :: s.visited_links } :=
  ⟨growsBack_refl _, growsFront_cons _ _, growsFront_refl _, growsFront_refl _,
    Nat.le_refl _, fun h => ⟨Nat.le_refl _, h⟩⟩

theorem extends_advance (d : Nat) (s : CrawlState) :
    Extends s { s with now := s.now + d } :=
  ⟨growsBack_refl _, growsFront_refl _, growsFront_refl _, growsFront_refl _,
    Nat.le_add_right _ _, fun h => ⟨Nat.le_refl _, Nat.le_trans h (Nat.le_add_right _ _)⟩⟩

theorem extends_saveStep (job_data : Option Record) (s : CrawlState) :
    Extends s (save_record job_data s) := by
  cases job_data with
  | none => exact extends_refl s
  | some jd =>
    by_cases h : jd.url ∈ s.unique_urls
    · simp only [save_record, if_pos h]
      exact extends_refl s
    · simp only [save_record, if_neg h]
      exact ⟨growsBack_append _ _, growsFront_refl _, growsFront_cons _ _,
        growsFront_refl _, Nat.le_refl _, fun hle => ⟨hle, Nat.le_refl _⟩⟩

theorem explore_deeper_extends {env : Env}
    {recurse : String → CrawlState → CrawlState}
    (hrec : ∀ dl s, Extends s (recurse dl s)) :
    ∀ (t : Nat) (l : List String) (s : CrawlState),
      Extends s (explore_deeper env recurse t l s) := by
  intro t l
  induction l with
  | nil => intro s; exact extends_refl s
  | cons c rest ih =>
    intro s
    by_cases h1 : TIMEOUT_DEEPER_SECONDS < s.now - t
    · simp only [explore_deeper, if_pos h1]
      exact extends_refl s
    · by_cases h2 : c ∈ s.visited_links
      · simp only [explore_deeper, if_neg h1, if_pos h2]
        exact ih s
      · simp only [explore_deeper, if_neg h1, if_neg h2]
        exact extends_trans (extends_trans (extends_push_visited c s) (hrec c _)) (ih _)

theorem process_node_extends {env : Env}
    {recurse : String → CrawlState → CrawlState}
    (hrec : ∀ dl s, Extends s (recurse dl s))
    (link : String) (s : CrawlState) :
    Extends s (process_node env recurse link s) := by
  simp only [process_node]
  split
  · exact extends_push_calls link s
  · split
    · exact extends_trans (extends_push_calls link s) (extends_advance _ _)
    · refine extends_trans (extends_trans (extends_trans (extends_trans (extends_trans
        (extends_push_calls link s) (extends_advance _ _)) (extends_advance _ _))
        (extends_saveStep _ _)) (extends_advance _ _))
        (explore_deeper_extends hrec _ _ _)

theorem process_links_extends (env : Env) :
    ∀ (fuel : Nat) (link : String) (s : CrawlState),
      Extends s (process_links_recursively env fuel link s) := by
  intro fuel
  induction fuel with
  | zero =>
    intro link s
    exact process_node_extends (fun dl s' => extends_refl s') link s
  | succ fuel ih =>
    intro link s
    exact process_node_extends (fun dl s' => ih dl s') link s

theorem root_loop_extends (env : Env) (fuel : Nat) :
    ∀ (q : List String) (s : CrawlState), Extends s (root_loop env fuel q s) := by
  intro q
  induction q with
  | nil => intro s; exact extends_refl s
  | cons c rest ih =>
    intro s
    by_cases h1 : s.job_results.length < MAX_RECORDS
    · by_cases h2 : c ∈ s.visited_links
      · simp only [root_loop, if_pos h1, if_pos h2]
        exact ih s
      · simp only [root_loop, if_pos h1, if_neg h2]
        exact extends_trans (extends_trans (extends_push_visited c s)
          (process_links_extends env fuel c _)) (ih _)
    · simp only [root_loop, if_neg h1]
      exact extends_refl s

theorem save_record_preserves {Q : CrawlState → Prop}
    (hsave : ∀ (jd : Record) (s : CrawlState), Q s → jd.url ∉ s.unique_urls →
      Q { s with job_results := s.job_results ++ [jd],
                 unique_urls := jd.url :: s.unique_urls,
                 last_save_time := s.now })
    (job_data : Option Record) (s : CrawlState) (hs : Q s) :
    Q (save_record job_data s) := by
  cases job_data with
  | none => exact hs
  | some jd =>
    by_cases h : jd.url ∈ s.unique_urls
    · simp only [save_record, if_pos h]; exact hs
    · simp only [save_record, if_neg h]; exact hsave jd s hs h

theorem explore_deeper_preserves {env : Env}
    {recurse : String → CrawlState → CrawlState} {Q : CrawlState → Prop}
    (hrec : ∀ dl s, Q s → dl ∉ s.visited_links →
      Q (recurse dl { s with visited_links := dl :: s.visited_links })) :
    ∀ (t : Nat) (l : List String) (s : CrawlState), Q s →
      Q (explore_deeper env recurse t l s) := by
  intro t l
  induction l with
  | nil => intro s hs; exact hs
  | cons c rest ih =>
    intro s hs
    by_cases h1 : TIMEOUT_DEEPER_SECONDS < s.now - t
    · simp only [explore_deeper, if_pos h1]; exact hs
    · by_cases h2 : c ∈ s.visited_links
      · simp only [explore_deeper, if_neg h1, if_pos h2]; exact ih s hs
      · simp only [explore_deeper, if_neg h1, if_neg h2]
        exact ih _ (hrec c s hs h2)

theorem process_node_preserves {env : Env}
    {recurse : String → CrawlState → CrawlState} {Q : CrawlState → Prop}
    (hcalls : ∀ l s, Q s → Q { s with calls := l :: s.calls })
    (hnow : ∀ d s, Q s → Q { s with now := s.now + d })
    (hsave : ∀ (jd : Record) (s : CrawlState), Q s → jd.url ∉ s.unique_urls →
      Q { s with job_results := s.job_results ++ [jd],
                 unique_urls := jd.url :: s.unique_urls,
                 last_save_time := s.now })
    (hrec : ∀ dl s, Q s → dl ∉ s.visited_links →
      Q (recurse dl { s with visited_links := dl :: s.visited_links }))
    (link : String) (s : CrawlState) (hs : Q s) :
    Q (process_node env recurse link s) := by
  simp only [process_node]
  split
  · exact hcalls link s hs
  · split
    · exact hnow _ _ (hcalls link s hs)
    · exact explore_deeper_preserves hrec _ _ _
        (hnow _ _ (save_record_preserves hsave _ _ (hnow _ _ (hnow _ _ (hcalls link s hs)))))

theorem process_links_preserves {env : Env} {Q : CrawlState → Prop}
    (hcalls : ∀ l s, Q s → Q { s with calls := l :: s.calls })
    (hnow : ∀ d s, Q s → Q { s with now := s.now + d })
    (hsave : ∀ (jd : Record) (s : CrawlState), Q s → jd.url ∉ s.unique_urls →
      Q { s with job_results := s.job_results ++ [jd],
                 unique_urls := jd.url :: s.unique_urls,
                 last_save_time := s.now })
    (hvis : ∀ l s, Q s → Q { s with visited_links := l :: s.visited_links }) :
    ∀ (fuel : Nat) (link : String) (s : CrawlState), Q s →
      Q (process_links_recursively env fuel link s) := by
  intro fuel
  induction fuel with
  | zero =>
    intro link s hs
    exact process_node_preserves hcalls hnow hsave
      (fun dl s h _ => hvis dl s h) link s hs
  | succ fuel ih =>
    intro link s hs
    exact process_node_preserves hcalls hnow hsave
      (fun dl s h _ => ih dl _ (hvis dl s h)) link s hs

theorem root_loop_preserves {env : Env} {fuel : Nat} {Q : CrawlState → Prop}
    (hcalls : ∀ l s, Q s → Q { s with calls := l :: s.calls })
    (hnow : ∀ d s, Q s → Q { s with now := s.now + d })
    (hsave : ∀ (jd : Record) (s : CrawlState), Q s → jd.url ∉ s.unique_urls →
      Q { s with job_results := s.job_results ++ [jd],
                 unique_urls := jd.url :: s.unique_urls,
                 last_save_time := s.now })
    (hvis : ∀ l s, Q s → Q { s with visited_links := l :: s.visited_links }) :
    ∀ (q : List String) (s : CrawlState), Q s → Q (root_loop env fuel q s) := by
  intro q
  induction q with
  | nil => intro s hs; exact hs
  | cons c rest ih =>
    intro s hs
    by_cases h1 : s.job_results.length < MAX_RECORDS
    · by_cases h2 : c ∈ s.visited_links
      · simp only [root_loop, if_pos h1, if_pos h2]; exact ih s hs
      · simp only [root_loop, if_pos h1, if_neg h2]
        exact ih _ (process_links_preserves hcalls hnow hsave hvis fuel c _ (hvis c s hs))
    · simp only [root_loop, if_neg h1]; exact hs

theorem scrape_jobs_preserves {env : Env} {fuel : Nat} {Q : CrawlState → Prop}
    (hcalls : ∀ l s, Q s → Q { s with calls := l :: s.calls })
    (hnow : ∀ d s, Q s → Q { s with now := s.now + d })
    (hsave : ∀ (jd : Record) (s : CrawlState), Q s → jd.url ∉ s.unique_urls →
      Q { s with job_results := s.job_results ++ [jd],
                 unique_urls := jd.url :: s.unique_urls,
                 last_save_time := s.now })
    (hvis : ∀ l s, Q s → Q { s with visited_links := l :: s.visited_links })
    (hinit : Q (initialState env)) : Q (scrape_jobs env fuel) := by
  simp only [scrape_jobs]
  split
  · exact hnow _ _ hinit
  · exact root_loop_preserves hcalls hnow hsave hvis _ _ (hnow _ _ (hnow _ _ hinit))

/-- The ledger and the unique-result set move in lockstep: `unique_urls` is
exactly the (reversed, because it grows by cons) list of URLs of the saved
records. -/
def LedgerMirrorsUnique (s : CrawlState) : Prop :=
  s.unique_urls = (s.job_results.map Record.url).reverse

/-- No two saved records share a URL, and every saved record's URL has been
registered in `unique_urls`. -/
def LedgerNodup (s : CrawlState) : Prop :=
  (s.job_results.map Record.url).Nodup ∧
  ∀ r ∈ s.job_results, r.url ∈ s.unique_urls

/-- Ghost-log invariant: the explorer has been invoked at most once per
address, and only on addresses already scheduled in `visited_links`. -/
def CallsInv (s : CrawlState) : Prop :=
  s.calls.Nodup ∧ ∀ l ∈ s.calls, l ∈ s.visited_links

theorem LedgerMirrorsUnique_save (jd : Record) (s : CrawlState)
    (hs : LedgerMirrorsUnique s) (_h : jd.url ∉ s.unique_urls) :
    LedgerMirrorsUnique { s with job_results := s.job_results ++ [jd],
                                 unique_urls := jd.url :: s.unique_urls,
                                 last_save_time := s.now } := by
  unfold LedgerMirrorsUnique at hs ⊢
  simp only [List.map_append, List.reverse_append, List.map_cons, List.map_nil,
    List.reverse_cons, List.reverse_nil, List.nil_append, List.cons_append]
  rw [hs]

theorem LedgerNodup_save (jd : Record) (s : CrawlState)
    (hs : LedgerNodup s) (h : jd.url ∉ s.unique_urls) :
    LedgerNodup { s with job_results := s.job_results ++ [jd],
                         unique_urls := jd.url :: s.unique_urls,
                         last_save_time := s.now } := by
  obtain ⟨hnd, hmem⟩ := hs
  constructor
  · simp only [List.map_append, List.map_cons, List.map_nil]
    rw [List.nodup_append]
    refine ⟨hnd, List.nodup_singleton _, ?_⟩
    intro x hx hx'
    have hxeq : x = jd.url := by simpa using hx'
    subst hxeq
    obtain ⟨r, hr, hru⟩ := List.mem_map.mp hx
    exact h (hru ▸ hmem r hr)
  · intro r hr
    rcases List.mem_append.mp hr with h1 | h1
    · exact List.mem_cons_of_mem _ (hmem r h1)
    · have : r = jd := by simpa using h1
      subst this
      exact List.mem_cons_self _ _

theorem LedgerMirrorsUnique_process (env : Env) (fuel : Nat) (link : String)
    (s : CrawlState) (hs : LedgerMirrorsUnique s) :
    LedgerMirrorsUnique (process_links_recursively env fuel link s) :=
  process_links_preserves (fun _ _ h => h) (fun _ _ h => h)
    LedgerMirrorsUnique_save (fun _ _ h => h) fuel link s hs

theorem LedgerNodup_process (env : Env) (fuel : Nat) (link : String)
    (s : CrawlState) (hs : LedgerNodup s) :
    LedgerNodup (process_links_recursively env fuel link s) :=
  process_links_preserves (fun _ _ h => h) (fun _ _ h => h)
    LedgerNodup_save (fun _ _ h => h) fuel link s hs

theorem LedgerMirrorsUnique_scrape (env : Env) (fuel : Nat) :
    LedgerMirrorsUnique (scrape_jobs env fuel) :=
  scrape_jobs_preserves (fun _ _ h => h) (fun _ _ h => h)
    LedgerMirrorsUnique_save (fun _ _ h => h) rfl

theorem LedgerNodup_scrape (env : Env) (fuel : Nat) :
    LedgerNodup (scrape_jobs env fuel) :=
  scrape_jobs_preserves (fun _ _ h => h) (fun _ _ h => h)
    LedgerNodup_save (fun _ _ h => h) ⟨List.nodup_nil, by simp [initialState]⟩

theorem CallsInv_visited (l : String) (s : CrawlState) (hs : CallsInv s) :
    CallsInv { s with visited_links := l :: s.visited_links } :=
  ⟨hs.1, fun x hx => List.mem_cons_of_mem _ (hs.2 x hx)⟩

theorem save_record_calls (job_data : Option Record) (s : CrawlState) :
    (save_record job_data s).calls = s.calls := by
  cases job_data with
  | none => rfl
  | some jd => by_cases h : jd.url ∈ s.unique_urls <;> simp [save_record, h]

theorem save_record_visited (job_data : Option Record) (s : CrawlState) :
    (save_record job_data s).visited_links = s.visited_links := by
  cases job_data with
  | none => rfl
  | some jd => by_cases h : jd.url ∈ s.unique_urls <;> simp [save_record, h]

theorem process_node_calls {env : Env}
    {recurse : String → CrawlState → CrawlState}
    (hrec : ∀ dl s, CallsInv s → dl ∉ s.visited_links →
      CallsInv (recurse dl { s with visited_links := dl :: s.visited_links }))
    (link : String) (s : CrawlState) (hin : link ∈ s.visited_links)
    (hnew : link ∉ s.calls) (hs : CallsInv s) :
    CallsInv (process_node env recurse link s) := by
  have h₀ : CallsInv { s with calls := link :: s.calls } := by
    refine ⟨List.nodup_cons.mpr ⟨hnew, hs.1⟩, ?_⟩
    intro x hx
    rcases List.mem_cons.mp hx with h | h
    · exact h ▸ hin
    · exact hs.2 x h
  simp only [process_node]
  split
  · exact h₀
  · split
    · exact h₀
    · refine explore_deeper_preserves hrec _ _ _ ?_
      unfold CallsInv at h₀ ⊢
      simp only [save_record_calls, save_record_visited]
      exact h₀

theorem process_links_calls (env : Env) :
    ∀ (fuel : Nat) (link : String) (s : CrawlState), link ∈ s.visited_links →
      link ∉ s.calls → CallsInv s →
      CallsInv (process_links_recursively env fuel link s) := by
  intro fuel
  induction fuel with
  | zero =>
    intro link s hin hnew hs
    exact process_node_calls (fun dl s h hd => CallsInv_visited dl s h)
      link s hin hnew hs
  | succ fuel ih =>
    intro link s hin hnew hs
    refine process_node_calls ?_ link s hin hnew hs
    intro dl s h hd
    exact ih dl _ (List.mem_cons_self _ _) (fun hc => hd (h.2 dl hc))
      (CallsInv_visited dl s h)

theorem root_loop_calls (env : Env) (fuel : Nat) :
    ∀ (q : List String) (s : CrawlState), CallsInv s →
      CallsInv (root_loop env fuel q s) := by
  intro q
  induction q with
  | nil => intro s hs; exact hs
  | cons c rest ih =>
    intro s hs
    by_cases h1 : s.job_results.length < MAX_RECORDS
    · by_cases h2 : c ∈ s.visited_links
      · simp only [root_loop, if_pos h1, if_pos h2]; exact ih s hs
      · simp only [root_loop, if_pos h1, if_neg h2]
        exact ih _ (process_links_calls env fuel c _ (List.mem_cons_self _ _)
          (fun hc => h2 (hs.2 c hc)) (CallsInv_visited c s hs))
    · simp only [root_loop, if_neg h1]; exact hs

theorem CallsInv_scrape (env : Env) (fuel : Nat) :
    CallsInv (scrape_jobs env fuel) := by
  have hinit : CallsInv (initialState env) := ⟨List.nodup_nil, by simp [initialState]⟩
  simp only [scrape_jobs]
  split
  · exact hinit
  · exact root_loop_calls env fuel _ _ hinit

theorem save_record_now (job_data : Option Record) (s : CrawlState) :
    (save_record job_data s).now = s.now := by
  cases job_data with
  | none => rfl
  | some jd => by_cases h : jd.url ∈ s.unique_urls <;> simp [save_record, h]

theorem process_node_abort (env : Env)
    (recurse : String → CrawlState → CrawlState) (link : String)
    (s : CrawlState) (h : TIMEOUT_TOTAL_SECONDS < s.now - s.last_save_time) :
    process_node env recurse link s = { s with calls := link :: s.calls } := by
  simp [process_node, h]

theorem process_links_abort (env : Env) (fuel : Nat) (link : String)
    (s : CrawlState) (h : TIMEOUT_TOTAL_SECONDS < s.now - s.last_save_time) :
    process_links_recursively env fuel link s
      = { s with calls := link :: s.calls } := by
  cases fuel with
  | zero => exact process_node_abort env _ link s h
  | succ fuel => exact process_node_abort env _ link s h

theorem process_node_goto_fail (env : Env)
    (recurse : String → CrawlState → CrawlState) (link : String)
    (s : CrawlState) (h1 : ¬ TIMEOUT_TOTAL_SECONDS < s.now - s.last_save_time)
    (h2 : env.gotoOk link = false) :
    process_node env recurse link s
      = { s with calls := link :: s.calls, now := s.now + env.gotoDur link } := by
  simp [process_node, h1, h2]

theorem explore_deeper_timeout (env : Env)
    (recurse : String → CrawlState → CrawlState) (t : Nat) (l : List String)
    (s : CrawlState) (h : TIMEOUT_DEEPER_SECONDS < s.now - t) :
    explore_deeper env recurse t l s = s := by
  cases l with
  | nil => rfl
  | cons c rest => simp [explore_deeper, h]

theorem root_loop_deadline (env : Env) (fuel : Nat) :
    ∀ (q : List String) (s : CrawlState),
      TIMEOUT_TOTAL_SECONDS < s.now - s.last_save_time →
      (root_loop env fuel q s).job_results = s.job_results ∧
      (root_loop env fuel q s).unique_urls = s.unique_urls ∧
      (root_loop env fuel q s).last_save_time = s.last_save_time ∧
      (root_loop env fuel q s).now = s.now := by
  intro q
  induction q with
  | nil => intro s _; exact ⟨rfl, rfl, rfl, rfl⟩
  | cons c rest ih =>
    intro s h
    by_cases h1 : s.job_results.length < MAX_RECORDS
    · by_cases h2 : c ∈ s.visited_links
      · simp only [root_loop, if_pos h1, if_pos h2]
        exact ih s h
      · simp only [root_loop, if_pos h1, if_neg h2]
        rw [process_links_abort env fuel c
          { s with visited_links := c :: s.visited_links } h]
        exact ih _ h
    · simp [root_loop, h1]

theorem process_node_discovery_eats_budget (env : Env)
    (recurse : String → CrawlState → CrawlState) (link : String)
    (s : CrawlState) (h1 : ¬ TIMEOUT_TOTAL_SECONDS < s.now - s.last_save_time)
    (h3 : TIMEOUT_DEEPER_SECONDS < env.findDur link) :
    (process_node env recurse link s).visited_links = s.visited_links := by
  simp only [process_node]
  split
  · exact absurd (by assumption) h1
  · split
    · rfl
    · rw [explore_deeper_timeout]
      · simp [save_record_visited]
      · dsimp only
        rw [save_record_now]
        omega

/-- C1: at every point of every run no two records in `job_results` share an
address: a record is appended only when its extracted URL is absent from
`unique_urls`, and the URL is added to that set in the same step, so the
no-duplicate invariant is preserved by every explorer call and holds of the
final state of `scrape_jobs`. -/
theorem C1_no_duplicate_addresses_in_ledger (env : Env) (fuel : Nat) :
    (∀ (link : String) (s : CrawlState), LedgerNodup s →
      LedgerNodup (process_links_recursively env fuel link s)) ∧
    ((scrape_jobs env fuel).job_results.map Record.url).Nodup :=
  ⟨fun link s hs => LedgerNodup_process env fuel link s hs,
   (LedgerNodup_scrape env fuel).1⟩

/-- Witness for C1 at a concrete oracle and the empty initial state. -/
theorem C1_witness :
    LedgerNodup (process_links_recursively envA 1 "a" (initialState envA)) :=
  (C1_no_duplicate_addresses_in_ledger envA 1).1 "a" (initialState envA)
    ⟨List.nodup_nil, by intro r hr; simp [initialState] at hr⟩

set_option maxRecDepth 4000 in
/-- C2: the record cap `MAX_RECORDS` is checked only at the root loop
boundary — once the ledger has reached the cap the root loop starts no new
branch and returns its state unchanged — and it is never checked inside the
recursive explorer: from a concrete state already holding `MAX_RECORDS`
records, one explorer call saves a further record, taking the ledger past
the cap. -/
theorem C2_cap_checked_only_at_root (env : Env) (fuel : Nat) :
    (∀ (q : List String) (s : CrawlState),
      MAX_RECORDS ≤ s.job_results.length → root_loop env fuel q s = s) ∧
    MAX_RECORDS ≤ overCap.job_results.length ∧
    (process_links_recursively envA 1 "a" overCap).job_results.length
      = MAX_RECORDS + 1 := by
  refine ⟨?_, by simp [overCap], by decide⟩
  intro q s h
  cases q with
  | nil => rfl
  | cons c rest => simp [root_loop, Nat.not_lt.mpr h]

set_option maxRecDepth 4000 in
/-- Witness for C2 at a concrete queue and over-cap state. -/
theorem C2_witness : root_loop envA 1 ["x"] overCap = overCap :=
  (C2_cap_checked_only_at_root envA 1).1 ["x"] overCap (by simp [overCap])

/-- C3: when the recursive explorer is entered with `now − last_save_time >
TIMEOUT_TOTAL_SECONDS`, the entire run aborts: the call returns its state
untouched (apart from the ghost invocation log) before doing any work —
short-circuiting all pending recursion — and from such a state the rest of
the root loop can change nothing but the visited set and the ghost log: no
record is saved, no URL registered, and the clock and last-progress
timestamp never move again, i.e. every explorer invocation begun after the
check fires dies at the check. -/
theorem C3_global_deadline_kill_switch (env : Env) (fuel : Nat)
    (s : CrawlState)
    (h : TIMEOUT_TOTAL_SECONDS < s.now - s.last_save_time) :
    (∀ link, process_links_recursively env fuel link s
        = { s with calls := link :: s.calls }) ∧
    (∀ q, (root_loop env fuel q s).job_results = s.job_results ∧
          (root_loop env fuel q s).unique_urls = s.unique_urls ∧
          (root_loop env fuel q s).last_save_time = s.last_save_time ∧
          (root_loop env fuel q s).now = s.now) :=
  ⟨fun link => process_links_abort env fuel link s h,
   fun q => root_loop_deadline env fuel q s h⟩

/-- Witness for C3 at a concrete state whose deadline is already exceeded. -/
theorem C3_witness :
    process_links_recursively envA 1 "a" sLate
      = { sLate with calls := "a" :: sLate.calls } :=
  (C3_global_deadline_kill_switch envA 1 sLate (by decide)).1 "a"

/-- C4: the visited set only grows under the explorer and under the root
loop; and over a whole run (starting from the empty ghost log) the explorer
is invoked at most once per address, each invoked address having been added
to the visited set before the invocation (scheduled-then-invoked, so an
address is never explored twice). -/
theorem C4_visited_only_grows_explored_once (env : Env) (fuel : Nat) :
    (∀ (link : String) (s : CrawlState), GrowsFront s.visited_links
        (process_links_recursively env fuel link s).visited_links) ∧
    (∀ (q : List String) (s : CrawlState), GrowsFront s.visited_links
        (root_loop env fuel q s).visited_links) ∧
    (scrape_jobs env fuel).calls.Nodup ∧
    (∀ l ∈ (scrape_jobs env fuel).calls, l ∈ (scrape_jobs env fuel).visited_links) :=
  ⟨fun link s => (process_links_extends env fuel link s).2.1,
   fun q s => (root_loop_extends env fuel q s).2.1,
   (CallsInv_scrape env fuel).1, (CallsInv_scrape env fuel).2⟩

/-- Witness for C4 at a concrete oracle and state. -/
theorem C4_witness :
    GrowsFront [] (process_links_recursively envA 1 "a" (initialState envA)).visited_links :=
  (C4_visited_only_grows_explored_once envA 1).1 "a" (initialState envA)

/-- C5: the retry behaviour the claim describes does not hold of the code.
The `try/except` inside `extract_job_data` / `find_job_links` swallows every
exception and returns the degraded value, so the tenacity wrapper always
sees a normal first attempt and never retries: both functions equal their
first-attempt body.  At the failing input (attempt 1 raises, attempt 2 would
succeed) the code returns the degraded result where the claim demands the
success value — the spec-described wrapper (`extract_job_data_spec`,
`find_job_links_spec`) returns it.  The degradation half of the claim does
hold: total failure yields `none` / `[]` without a crash. -/
theorem C5_retry_wrapper_defeated :
    (∀ (readyOk : Bool) (ta : Nat → Except Unit String) (u : String),
      extract_job_data readyOk ta u = extract_job_data_body readyOk (ta 0) u) ∧
    (∀ (readyOk : Bool) (la : Nat → Except Unit (List String)),
      find_job_links readyOk la = find_job_links_body readyOk (la 0)) ∧
    extract_job_data true failTitleAttempts "https://justjoin.it/job-offer/x" = none ∧
    extract_job_data_spec failTitleAttempts "https://justjoin.it/job-offer/x"
      = some { title := "Senior Tester", url := "https://justjoin.it/job-offer/x" } ∧
    find_job_links true failLinkAttempts = [] ∧
    find_job_links_spec failLinkAttempts = ["https://justjoin.it/job-offer/x"] ∧
    extract_job_data true (fun _ => Except.error ()) "u" = none ∧
    find_job_links true (fun _ => Except.error ()) = [] := by
  exact ⟨fun _ _ _ => rfl, fun _ _ => rfl, by decide, by decide, by decide,
    by decide, rfl, rfl⟩

/-- C6 counterexample: with link discovery taking longer than
`TIMEOUT_DEEPER_SECONDS` (and no other time passing), the code drops the
node's only candidate — because `deeper_start_time` was read BEFORE
discovery ran — while the ordering the claim describes (`deeper_start`
recorded after discovery and shuffling, `process_node_spec_order`) would
visit it. -/
theorem C6_counterexample :
    "c" ∉ (process_links_recursively envC6 1 "a" (initialState envC6)).visited_links ∧
    "c" ∈ (process_node_spec_order envC6 (fun _ s' => s') "a" (initialState envC6)).visited_links := by
  decide

/-- C6 (amended): `deeper_start` is recorded BEFORE Link Discovery runs, so
discovery time counts against the deeper budget — if discovery alone takes
longer than `TIMEOUT_DEEPER_SECONDS`, every candidate of the node is dropped
and the visited set is unchanged; then, iterating the shuffled candidates:
once `now − deeper_start > TIMEOUT_DEEPER_SECONDS` all remaining candidates
of the node are dropped (neither visited nor deferred), an in-budget
unvisited candidate is added to the visited set and recursed into, an
in-budget visited candidate is skipped; and the recursion descends with one
unit less fuel (the source's `depth + 1`). -/
theorem C6_deeper_budget_amended :
    (∀ (env : Env) (recurse : String → CrawlState → CrawlState) (link : String)
        (s : CrawlState), ¬ TIMEOUT_TOTAL_SECONDS < s.now - s.last_save_time →
        TIMEOUT_DEEPER_SECONDS < env.findDur link →
        (process_node env recurse link s).visited_links = s.visited_links) ∧
    (∀ (env : Env) (recurse : String → CrawlState → CrawlState) (t : Nat)
        (c : String) (rest : List String) (s : CrawlState),
        TIMEOUT_DEEPER_SECONDS < s.now - t →
        explore_deeper env recurse t (c :: rest) s = s) ∧
    (∀ (env : Env) (recurse : String → CrawlState → CrawlState) (t : Nat)
        (c : String) (rest : List String) (s : CrawlState),
        ¬ TIMEOUT_DEEPER_SECONDS < s.now - t → c ∉ s.visited_links →
        explore_deeper env recurse t (c :: rest) s
          = explore_deeper env recurse t rest
              (recurse c { s with visited_links := c :: s.visited_links })) ∧
    (∀ (env : Env) (recurse : String → CrawlState → CrawlState) (t : Nat)
        (c : String) (rest : List String) (s : CrawlState),
        ¬ TIMEOUT_DEEPER_SECONDS < s.now - t → c ∈ s.visited_links →
        explore_deeper env recurse t (c :: rest) s
          = explore_deeper env recurse t rest s) ∧
    (∀ (env : Env) (fuel : Nat) (link : String) (s : CrawlState),
        process_links_recursively env (fuel + 1) link s
          = process_node env
              (fun dl s' => process_links_recursively env fuel dl s') link s) := by
  refine ⟨?_, ?_, ?_, ?_, fun env fuel link s => rfl⟩
  · intro env recurse link s h1 h3
    exact process_node_discovery_eats_budget env recurse link s h1 h3
  · intro env recurse t c rest s h
    exact explore_deeper_timeout env recurse t _ s h
  · intro env recurse t c rest s h1 h2
    simp [explore_deeper, h1, h2]
  · intro env recurse t c rest s h1 h2
    simp [explore_deeper, h1, h2]

/-- Witness for C6 at a concrete slow-discovery oracle. -/
theorem C6_witness :
    (process_node envC6 (fun _ s' => s') "a" (initialState envC6)).visited_links
      = (initialState envC6).visited_links :=
  C6_deeper_budget_amended.1 envC6 (fun _ s' => s') "a" (initialState envC6)
    (by decide) (by decide)

/-- C7 counterexample: after a readiness-wait timeout the settle delay does
NOT run — the claim's "proceeds anyway following a fixed settle delay" fails
— because the timeout exception jumps over `wait_for_timeout(3000)` straight
into the `except` clause. -/
theorem C7_counterexample : ¬ (wait_for_page_load false).settled = true := by
  decide

/-- C7 (amended): an internal page-load timeout does not by itself fail the
node: `wait_for_page_load` never lets an exception escape, and the bodies of
record extraction and link discovery behave identically whether or not the
readiness wait timed out (best-effort content); the fixed settle delay,
however, runs only when the readiness wait succeeds — on timeout it is
skipped. -/
theorem C7_load_timeout_tolerated_amended :
    (∀ readyOk : Bool, (wait_for_page_load readyOk).raised = false) ∧
    (∀ (readyOk : Bool) (ta : Except Unit String) (u : String),
      extract_job_data_body readyOk ta u = extract_job_data_body true ta u) ∧
    (∀ (readyOk : Bool) (la : Except Unit (List String)),
      find_job_links_body readyOk la = find_job_links_body true la) ∧
    (wait_for_page_load true).settled = true ∧
    (wait_for_page_load false).settled = false := by
  refine ⟨?_, fun _ _ _ => rfl, fun _ _ => rfl, rfl, rfl⟩
  intro readyOk; cases readyOk <;> rfl

/-- C8 counterexample: a run ending with an empty ledger (here: every
navigation fails) still writes an artifact, but the artifact is a single
empty line — it does not contain the `title,url` column-header row the
claim demands, because `pd.DataFrame([])` infers no columns. -/
theorem C8_counterexample :
    (scrape_jobs envC8 1).job_results = [] ∧
    scrape_jobs_csv envC8 1 = [""] ∧
    "title,url" ∉ scrape_jobs_csv envC8 1 := by
  decide

/-- C8 (amended): whenever a run ends with an empty result ledger (for any
reason, including an immediate global timeout), the persistence step still
runs and writes an artifact with zero data rows — but the artifact carries
no column headers: pandas infers columns from the records, so the empty
ledger produces an empty CSV consisting of a single empty line. -/
theorem C8_empty_ledger_artifact_amended (env : Env) (fuel : Nat)
    (h : (scrape_jobs env fuel).job_results = []) :
    scrape_jobs_csv env fuel = [""] := by
  simp only [scrape_jobs_csv, h]
  decide

/-- Witness for C8 at a concrete all-navigation-fails oracle. -/
theorem C8_witness : scrape_jobs_csv envC8 1 = [""] :=
  C8_empty_ledger_artifact_amended envC8 1 (by decide)

/-- C9: the ledger and the unique-result set are kept in lockstep: every
append to `job_results` is paired with an add to `unique_urls` in the same
step, so `unique_urls` is exactly the (reversed) URL column of the ledger —
preserved by every explorer call, and at the end of every run the two have
equal length and the same members. -/
theorem C9_ledger_unique_lockstep (env : Env) (fuel : Nat) :
    (∀ (link : String) (s : CrawlState), LedgerMirrorsUnique s →
      LedgerMirrorsUnique (process_links_recursively env fuel link s)) ∧
    (scrape_jobs env fuel).unique_urls
      = ((scrape_jobs env fuel).job_results.map Record.url).reverse ∧
    (scrape_jobs env fuel).unique_urls.length
      = (scrape_jobs env fuel).job_results.length ∧
    (∀ a, a ∈ (scrape_jobs env fuel).unique_urls ↔
      ∃ r ∈ (scrape_jobs env fuel).job_results, r.url = a) := by
  have hm := LedgerMirrorsUnique_scrape env fuel
  refine ⟨fun link s hs => LedgerMirrorsUnique_process env fuel link s hs, hm, ?_, ?_⟩
  · rw [hm]; simp
  · intro a; rw [hm]; simp

/-- Witness for C9 at a concrete oracle and the empty initial state. -/
theorem C9_witness :
    LedgerMirrorsUnique (process_links_recursively envA 1 "a" (initialState envA)) :=
  (C9_ledger_unique_lockstep envA 1).1 "a" (initialState envA) rfl

/-- C10: node failure performs no rollback of crawl state: every explorer
call only extends the state (ledger appended, visited / unique / invocation
sets grown, clock advanced, last-progress only refreshed forward — nothing
is ever removed or restored, whatever failures the oracle injects); a node
whose `page.goto` raises is abandoned at the node boundary with everything
accumulated before it intact; and after a child call returns — however the
child's own work failed internally — the parent's loop continues with its
remaining candidates. -/
theorem C10_no_rollback (env : Env) (fuel : Nat) :
    (∀ (link : String) (s : CrawlState),
      Extends s (process_links_recursively env fuel link s)) ∧
    (∀ (recurse : String → CrawlState → CrawlState) (link : String)
        (s : CrawlState),
      ¬ TIMEOUT_TOTAL_SECONDS < s.now - s.last_save_time →
      env.gotoOk link = false →
      process_node env recurse link s
        = { s with calls := link :: s.calls, now := s.now + env.gotoDur link }) ∧
    (∀ (recurse : String → CrawlState → CrawlState) (t : Nat) (dl : String)
        (rest : List String) (s : CrawlState),
      ¬ TIMEOUT_DEEPER_SECONDS < s.now - t → dl ∉ s.visited_links →
      explore_deeper env recurse t (dl :: rest) s
        = explore_deeper env recurse t rest
            (recurse dl { s with visited_links := dl :: s.visited_links })) := by
  refine ⟨fun link s => process_links_extends env fuel link s, ?_, ?_⟩
  · intro recurse link s h1 h2
    exact process_node_goto_fail env recurse link s h1 h2
  · intro recurse t dl rest s h1 h2
    simp [explore_deeper, h1, h2]

/-- Witness for C10 at a concrete oracle and state. -/
theorem C10_witness :
    Extends (initialState envA) (process_links_recursively envA 1 "a" (initialState envA)) :=
  (C10_no_rollback envA 1).1 "a" (initialState envA)
